import Mathlib

/-!
Shallow embedding of `pymodbus3/datastore/context.py`: the Modbus slave
data-model (`ModbusSlaveContext`) and the server-wide unit-id routing
(`ModbusServerContext`).  Collaborators that live outside this file's source
(the per-datatype storage blocks of `datastore/store.py`, the function-code
decoder of `interfaces.py`, `constants.Defaults` and
`exceptions.ParameterException`) are modelled from the specification, as
noted on each definition.
-/

namespace Pymodbus3

/-- The four Modbus object spaces, i.e. the keys `'d'`, `'c'`, `'i'`, `'h'`
of the `self.store` dictionary built in `ModbusSlaveContext.__init__`. -/
inductive Space where
  | d  -- discrete inputs
  | c  -- coils
  | i  -- input registers
  | h  -- holding registers
deriving DecidableEq, Repr

/-- Modelled from the spec: the per-datatype storage block
(`ModbusSequentialDataBlock` of `pymodbus3/datastore/store.py`, not in src).
Per spec section 3 a bank is an ordered container addressed by an integer
offset: a starting `address` plus the list of currently populated `values`,
so the populated range is `[address, address + values.length)`. -/
structure DataBlock (α : Type) where
  address : Nat
  values : List α
deriving Repr

/-- Modelled from the spec: the bank's own bounds check
(`validate(address, count) -> bool`, spec section 6).  Per spec section 4.1
it is true iff the full `[address, address + count)` range lies within the
bank's populated range. -/
def DataBlock.validate (b : DataBlock α) (address count : Nat) : Bool :=
  (List.range count).all fun j =>
    decide (b.address ≤ address + j) && decide (address + j < b.address + b.values.length)

/-- Modelled from the spec: the bank's `get_values(address, count)`
(spec section 6) — the `count` stored values starting at offset `address`
of the sequential block. -/
def DataBlock.get_values (b : DataBlock α) (address count : Nat) : List α :=
  (b.values.drop (address - b.address)).take count

/-- Modelled from the spec: the bank's `set_values(address, values)`
(spec section 6) — overwrite the stored values starting at offset
`address` of the sequential block with `vs`. -/
def DataBlock.set_values (b : DataBlock α) (address : Nat) (vs : List α) : DataBlock α :=
  { b with values :=
      b.values.take (address - b.address) ++ vs
        ++ b.values.drop (address - b.address + vs.length) }

/-- `i` lies in the populated range of bank `b`. -/
def DataBlock.inRange (b : DataBlock α) (i : Nat) : Prop :=
  b.address ≤ i ∧ i < b.address + b.values.length

/-- `ModbusSlaveContext`: the `self.store` dictionary with its four banks
(keys `'d'`, `'c'`, `'i'`, `'h'`), together with the function-code decoder
`self.decode`.  The decoder is modelled from the spec (section 6): a total
external lookup from function code to object-space key, inherited from
`IModbusSlaveContext` (`pymodbus3/interfaces.py`, not in src). -/
structure ModbusSlaveContext (α : Type) where
  store : Space → DataBlock α
  decode : Nat → Space

/-- `ModbusSlaveContext.validate`: `address += 1` then
`self.store[self.decode(fx)].validate(address, count)`. -/
def ModbusSlaveContext.validate (s : ModbusSlaveContext α) (fx address : Nat)
    (count : Nat := 1) : Bool :=
  (s.store (s.decode fx)).validate (address + 1) count

/-- `ModbusSlaveContext.get_values`: `address += 1` then
`self.store[self.decode(fx)].get_values(address, count)`. -/
def ModbusSlaveContext.get_values (s : ModbusSlaveContext α) (fx address : Nat)
    (count : Nat := 1) : List α :=
  (s.store (s.decode fx)).get_values (address + 1) count

/-- `ModbusSlaveContext.set_values`: `address += 1` then
`self.store[self.decode(fx)].set_values(address, values)`; the one bank is
mutated in place, the other three are untouched. -/
def ModbusSlaveContext.set_values (s : ModbusSlaveContext α) (fx address : Nat)
    (values : List α) : ModbusSlaveContext α :=
  { s with store := fun k =>
      if k = s.decode fx then (s.store k).set_values (address + 1) values else s.store k }

/-- Modelled from the spec: the system default unit id supplied by the
defaults provider (`constants.Defaults.UnitId` of `pymodbus3/constants.py`,
not in src); a valid unit identifier within the spec's `[0x00, 0xF7]`
range. -/
def UnitId : Int := 0x00

/-- A Python value stored in the server's `self.__slaves` dictionary:
either a slave context (opaque here, identified by a payload of type `β`)
or a dictionary of unit id to further such values — the latter arises
because single-mode construction stores the supplied mapping itself as the
sole entry. -/
inductive Obj (β : Type) where
  | slaveCtx : β → Obj β
  | dict : List (Int × Obj β) → Obj β
deriving Repr

/-- A Python `dict` keyed by (possibly negative) integers, as an
insertion-ordered association list with at most one entry per key. -/
abbrev Dict (β : Type) := List (Int × Obj β)

/-- Python `d[k] = v`: overwrite in place if the key exists, else append. -/
def dictSet (d : Dict β) (k : Int) (v : Obj β) : Dict β :=
  match d with
  | [] => [(k, v)]
  | (k', v') :: rest => if k' = k then (k, v) :: rest else (k', v') :: dictSet rest k v

/-- Python `k in d`. -/
def dictContains (d : Dict β) (k : Int) : Bool :=
  d.any fun p => p.1 = k

/-- Python `d.get(k)`: the stored value, or `none` when absent. -/
def dictGet (d : Dict β) (k : Int) : Option (Obj β) :=
  (d.find? fun p => p.1 = k).map Prod.snd

/-- Python `del d[k]` for a present key: drop the entry. -/
def dictErase (d : Dict β) (k : Int) : Dict β :=
  match d with
  | [] => []
  | (k', v') :: rest => if k' = k then rest else (k', v') :: dictErase rest k

/-- Modelled from the spec: the errors this core signals
(`exceptions.ParameterException` of `pymodbus3/exceptions.py`, not in src,
carrying its message), plus the `KeyError` the Python dictionary itself
raises when `del` is applied to an absent key. -/
inductive PyErr where
  | paramException : String → PyErr
  | keyError : Int → PyErr
deriving Repr, DecidableEq

/-- Message of the range-violation error raised by
`ModbusServerContext.__setitem__` and `__delitem__`. -/
def slaveIndexOutOfRange : String := "slave index out of range"

/-- Message of the missing-entry error raised by
`ModbusServerContext.__getitem__`. -/
def slaveDoesNotExist : String := "slave does not exist, or is out of range"

/-- `ModbusServerContext`: the `single` flag and the `self.__slaves`
dictionary from unit id to stored value. -/
structure ModbusServerContext (β : Type) where
  single : Bool
  slaves : Dict β
deriving Repr

namespace ModbusServerContext

/-- `ModbusServerContext.__init__(slaves=None, single=True)`:
`self.__slaves = slaves or {}`, and when `single` is true the mapping is
replaced by `{Defaults.UnitId: self.__slaves}`. -/
def init (slaves : Option (Dict β) := none) (single : Bool := true) :
    ModbusServerContext β :=
  let s := slaves.getD []
  if single then ⟨single, [(UnitId, Obj.dict s)]⟩ else ⟨single, s⟩

/-- `ModbusServerContext.__iter__` returns `self.__slaves.items()`: the
(unit id, stored value) pairs currently held. -/
def items (c : ModbusServerContext β) : Dict β :=
  c.slaves

/-- `ModbusServerContext.__contains__(slave)`: `slave in self.__slaves`. -/
def member (c : ModbusServerContext β) (slave : Int) : Bool :=
  dictContains c.slaves slave

/-- `ModbusServerContext.__setitem__(slave, context)`: in single mode the
key is forced to `Defaults.UnitId`; then the key must satisfy
`0xf7 >= slave >= 0x00` or `ParameterException('slave index out of range')`
is raised. -/
def setitem (c : ModbusServerContext β) (slave : Int) (context : Obj β) :
    Except PyErr (ModbusServerContext β) :=
  let slave := if c.single then UnitId else slave
  if 0xf7 ≥ slave ∧ slave ≥ 0x00 then
    .ok { c with slaves := dictSet c.slaves slave context }
  else
    .error (.paramException slaveIndexOutOfRange)

/-- `ModbusServerContext.__delitem__(slave)`: unless the mode is multi and
`0xf7 >= slave >= 0x00`, `ParameterException('slave index out of range')`
is raised; otherwise `del self.__slaves[slave]` runs, which raises the
dictionary's own `KeyError` when the key is absent. -/
def delitem (c : ModbusServerContext β) (slave : Int) :
    Except PyErr (ModbusServerContext β) :=
  if ¬c.single = true ∧ (0xf7 ≥ slave ∧ slave ≥ 0x00) then
    if dictContains c.slaves slave then
      .ok { c with slaves := dictErase c.slaves slave }
    else
      .error (.keyError slave)
  else
    .error (.paramException slaveIndexOutOfRange)

/-- `ModbusServerContext.__getitem__(slave)`: in single mode the key is
forced to `Defaults.UnitId`; a present key returns
`self.__slaves.get(slave)`, an absent one raises
`ParameterException('slave does not exist, or is out of range')`. -/
def getitem (c : ModbusServerContext β) (slave : Int) :
    Except PyErr (Option (Obj β)) :=
  let slave := if c.single then UnitId else slave
  if dictContains c.slaves slave then
    .ok (dictGet c.slaves slave)
  else
    .error (.paramException slaveDoesNotExist)

end ModbusServerContext

/-- One operation of the `ModbusServerContext` mapping interface. -/
inductive Op (β : Type) where
  | set : Int → Obj β → Op β
  | get : Int → Op β
  | del : Int → Op β
  | mem : Int → Op β
  | iter : Op β

/-- The state after one operation: a raised error leaves the mapping
untouched (`__setitem__` and `__delitem__` raise before mutating), and the
read operations never mutate. -/
def step (c : ModbusServerContext β) (op : Op β) : ModbusServerContext β :=
  match op with
  | .set slave context =>
      match c.setitem slave context with
      | .ok c' => c'
      | .error _ => c
  | .del slave =>
      match c.delitem slave with
      | .ok c' => c'
      | .error _ => c
  | .get _ => c
  | .mem _ => c
  | .iter => c

/-- The state after a finite sequence of operations. -/
def run (c : ModbusServerContext β) (ops : List (Op β)) : ModbusServerContext β :=
  ops.foldl step c

/-- The single-mode invariant: the mode flag is set and the mapping holds
exactly the one default-unit-id entry. -/
def SingleInv (c : ModbusServerContext β) : Prop :=
  c.single = true ∧ ∃ v, c.slaves = [(UnitId, v)]

theorem DataBlock.validate_iff (b : DataBlock α) (a n : Nat) :
    b.validate a n = true ↔ ∀ i, a ≤ i → i < a + n → b.inRange i := by
  unfold DataBlock.validate DataBlock.inRange
  simp only [List.all_eq_true, List.mem_range, Bool.and_eq_true, decide_eq_true_eq]
  constructor
  · intro h i h1 h2
    have := h (i - a) (by omega)
    omega
  · intro h j hj
    have := h (a + j) (by omega) (by omega)
    omega

theorem DataBlock.get_set (b : DataBlock α) (a : Nat) (v : List α)
    (h1 : b.address ≤ a) (h2 : a + v.length ≤ b.address + b.values.length) :
    (b.set_values a v).get_values a v.length = v := by
  unfold DataBlock.set_values DataBlock.get_values
  simp only
  have hlen : (b.values.take (a - b.address)).length = a - b.address := by
    simp
    omega
  rw [List.append_assoc, List.drop_left' hlen, List.take_left]

theorem setitem_single (c : ModbusServerContext β) (h : c.single = true)
    (slave : Int) (ctx : Obj β) :
    c.setitem slave ctx = .ok { c with slaves := dictSet c.slaves UnitId ctx } := by
  unfold ModbusServerContext.setitem
  rw [h]
  simp [UnitId]

theorem delitem_single (c : ModbusServerContext β) (h : c.single = true)
    (slave : Int) :
    c.delitem slave = .error (.paramException slaveIndexOutOfRange) := by
  unfold ModbusServerContext.delitem
  rw [h]
  simp

theorem getitem_single (c : ModbusServerContext β) (h : c.single = true)
    (v : Obj β) (hv : c.slaves = [(UnitId, v)]) (slave : Int) :
    c.getitem slave = .ok (some v) := by
  unfold ModbusServerContext.getitem
  rw [h, hv]
  simp [dictContains, dictGet]

theorem singleInv_step (c : ModbusServerContext β) (hc : SingleInv c) (op : Op β) :
    SingleInv (step c op) := by
  obtain ⟨h1, v, h2⟩ := hc
  cases op with
  | set slave ctx =>
      simp only [step, setitem_single c h1]
      exact ⟨h1, ctx, by rw [h2]; simp [dictSet]⟩
  | del slave =>
      simp only [step, delitem_single c h1]
      exact ⟨h1, v, h2⟩
  | get slave => exact ⟨h1, v, h2⟩
  | mem slave => exact ⟨h1, v, h2⟩
  | iter => exact ⟨h1, v, h2⟩

theorem singleInv_run (c : ModbusServerContext β) (hc : SingleInv c) (ops : List (Op β)) :
    SingleInv (run c ops) := by
  induction ops generalizing c with
  | nil => exact hc
  | cons op rest ih => exact ih _ (singleInv_step c hc op)

theorem singleInv_init (s0 : Option (Dict β)) :
    SingleInv (ModbusServerContext.init s0 true) :=
  ⟨rfl, Obj.dict (s0.getD []), rfl⟩

/-- C1: `ModbusSlaveContext.validate(fx, a, n)` increments the address by
one and returns exactly the result of the bank selected by `decode(fx)`
applied as `validate(a+1, n)`; that result is true iff every offset in
`[a+1, a+1+n)` lies within the bank's populated range.  The operation is a
total boolean-valued function — it reports via the boolean and never
raises. -/
theorem validate_delegates_with_shift (α : Type) (s : ModbusSlaveContext α)
    (fx a n : Nat) :
    s.validate fx a n = (s.store (s.decode fx)).validate (a + 1) n ∧
    (s.validate fx a n = true ↔
      ∀ i, a + 1 ≤ i → i < a + 1 + n → (s.store (s.decode fx)).inRange i) :=
  ⟨rfl, DataBlock.validate_iff _ _ _⟩

/-- C3: when `[a+1, a+1+n)` lies within the populated range of the bank
selected by `decode(fx)`, `set_values(fx, a, v)` followed by
`get_values(fx, a, len(v))` returns exactly `v` — both operations apply
the same +1 shift and hit the same bank. -/
theorem set_then_get_roundtrip (α : Type) (s : ModbusSlaveContext α)
    (fx a : Nat) (v : List α)
    (h1 : (s.store (s.decode fx)).address ≤ a + 1)
    (h2 : a + 1 + v.length ≤
      (s.store (s.decode fx)).address + (s.store (s.decode fx)).values.length) :
    (s.set_values fx a v).get_values fx a v.length = v := by
  unfold ModbusSlaveContext.set_values ModbusSlaveContext.get_values
  simp only [if_pos rfl]
  exact DataBlock.get_set _ _ _ h1 h2

/-- Witness for C3: a holding-register bank populated on `[1, 6)`; writing
`[7, 8]` at request address 0 and reading 2 values back returns `[7, 8]`. -/
theorem set_then_get_roundtrip_witness :
    (ModbusSlaveContext.set_values
        ⟨fun _ => ⟨1, [0, 0, 0, 0, 0]⟩, fun _ => Space.h⟩ 3 0 [7, 8]).get_values 3 0 2
      = [7, 8] :=
  set_then_get_roundtrip Nat ⟨fun _ => ⟨1, [0, 0, 0, 0, 0]⟩, fun _ => Space.h⟩
    3 0 [7, 8] (by decide) (by decide)

/-- C2: from a single-mode construction, after any finite sequence of
set/get/delete/membership/iteration operations the mapping still holds
exactly one entry under the default unit id; `__setitem__` ignores the
caller-supplied unit id and overwrites that entry, `__delitem__` always
raises in single mode, and reads leave the state unchanged. -/
theorem single_mode_mapping_invariant (β : Type) (s0 : Option (Dict β))
    (ops : List (Op β)) :
    (∃ v, (run (ModbusServerContext.init s0 true) ops).slaves = [(UnitId, v)]) ∧
    (∀ slave ctx, (run (ModbusServerContext.init s0 true) ops).setitem slave ctx =
      .ok ⟨true, [(UnitId, ctx)]⟩) ∧
    (∀ slave, (run (ModbusServerContext.init s0 true) ops).delitem slave =
      .error (.paramException slaveIndexOutOfRange)) ∧
    (∀ slave, step (run (ModbusServerContext.init s0 true) ops) (Op.get slave) =
        run (ModbusServerContext.init s0 true) ops ∧
      step (run (ModbusServerContext.init s0 true) ops) (Op.mem slave) =
        run (ModbusServerContext.init s0 true) ops) := by
  obtain ⟨h1, v, h2⟩ := singleInv_run _ (singleInv_init s0) ops
  refine ⟨⟨v, h2⟩, ?_, fun slave => delitem_single _ h1 slave, fun slave => ⟨rfl, rfl⟩⟩
  intro slave ctx
  rw [setitem_single _ h1]
  cases hres : run (ModbusServerContext.init s0 true) ops with
  | mk sgl sl =>
      rw [hres] at h1 h2
      simp_all [dictSet, UnitId]

/-- C4: in multi mode, `__setitem__(slave, context)` inserts or replaces
the entry for `slave` iff `0x00 ≤ slave ≤ 0xF7`; outside that range it
raises the parameter-out-of-range error and the mapping is unchanged. -/
theorem multi_mode_setitem_range (β : Type) (c : ModbusServerContext β)
    (h : c.single = false) (slave : Int) (ctx : Obj β) :
    (0 ≤ slave → slave ≤ 0xf7 →
      c.setitem slave ctx = .ok { c with slaves := dictSet c.slaves slave ctx }) ∧
    ((slave < 0 ∨ 0xf7 < slave) →
      c.setitem slave ctx = .error (.paramException slaveIndexOutOfRange) ∧
      step c (.set slave ctx) = c) := by
  by_cases hr : (0xf7 : Int) ≥ slave ∧ slave ≥ 0
  · refine ⟨fun h0 h1 => ?_, fun habs => absurd habs (by omega)⟩
    unfold ModbusServerContext.setitem
    simp [h, hr]
  · refine ⟨fun h0 h1 => absurd ⟨h1, h0⟩ hr, fun habs => ?_⟩
    have herr : c.setitem slave ctx = .error (.paramException slaveIndexOutOfRange) := by
      unfold ModbusServerContext.setitem
      simp [h, hr]
    exact ⟨herr, by simp [step, herr]⟩

/-- Witness for C4: in an empty multi-mode context, setting unit id 0xF7
succeeds and setting unit id 0xF8 raises the range-violation error. -/
theorem multi_mode_setitem_range_witness :
    (ModbusServerContext.setitem (β := Nat) ⟨false, []⟩ 0xf7 (Obj.slaveCtx 1) =
      .ok ⟨false, [(0xf7, Obj.slaveCtx 1)]⟩) ∧
    (ModbusServerContext.setitem (β := Nat) ⟨false, []⟩ 0xf8 (Obj.slaveCtx 1) =
      .error (.paramException slaveIndexOutOfRange)) := by
  constructor
  · have h := (multi_mode_setitem_range Nat ⟨false, []⟩ rfl 0xf7 (Obj.slaveCtx 1)).1
      (by decide) (by decide)
    simpa [dictSet] using h
  · exact ((multi_mode_setitem_range Nat ⟨false, []⟩ rfl 0xf8 (Obj.slaveCtx 1)).2
      (by decide)).1

/-- C5: single-mode construction yields a mapping with exactly one entry,
stored under the system default unit id, whose value is the supplied
mapping itself (or an empty one when none is supplied), regardless of the
keys originally present in it. -/
theorem init_single_wraps_mapping (β : Type) (s0 : Option (Dict β)) :
    (ModbusServerContext.init s0 true).single = true ∧
    (ModbusServerContext.init s0 true).slaves = [(UnitId, Obj.dict (s0.getD []))] :=
  ⟨rfl, rfl⟩

/-- C6: in a single-mode context (reached by any operation sequence from
construction), `__getitem__` with any unit id — 5, 0, 247 included —
returns the same one stored entry, and `__setitem__` with any unit id
overwrites that same single default-id entry. -/
theorem single_mode_lookup_collapses (β : Type) (s0 : Option (Dict β))
    (ops : List (Op β)) :
    ∃ v, (∀ slave : Int,
        (run (ModbusServerContext.init s0 true) ops).getitem slave = .ok (some v)) ∧
      (∀ (slave : Int) (ctx : Obj β),
        (run (ModbusServerContext.init s0 true) ops).setitem slave ctx =
          .ok ⟨true, [(UnitId, ctx)]⟩) := by
  obtain ⟨h1, v, h2⟩ := singleInv_run _ (singleInv_init s0) ops
  refine ⟨v, fun slave => getitem_single _ h1 v h2 slave, ?_⟩
  intro slave ctx
  rw [setitem_single _ h1]
  cases hres : run (ModbusServerContext.init s0 true) ops with
  | mk sgl sl =>
      rw [hres] at h1 h2
      simp_all [dictSet, UnitId]

/-- C7: `__delitem__(slave)` raises the parameter-out-of-range error
exactly when single mode is active or `slave` lies outside `[0x00, 0xF7]`;
for an in-bounds unit id in multi mode the same code path runs whether the
id is present (the entry is removed) or absent (the dictionary's own
`KeyError`, not an error kind originating in this core). -/
theorem delitem_error_conditions (β : Type) (c : ModbusServerContext β)
    (slave : Int) :
    ((∃ msg, c.delitem slave = .error (.paramException msg)) ↔
      c.single = true ∨ slave < 0 ∨ 0xf7 < slave) ∧
    (c.single = false → 0 ≤ slave → slave ≤ 0xf7 →
      (dictContains c.slaves slave = true →
        c.delitem slave = .ok { c with slaves := dictErase c.slaves slave }) ∧
      (dictContains c.slaves slave = false →
        c.delitem slave = .error (.keyError slave))) := by
  unfold ModbusServerContext.delitem
  by_cases hs : c.single = true
  · simp [hs]
  · have hs' : c.single = false := by simpa using hs
    by_cases hr : (0xf7 : Int) ≥ slave ∧ slave ≥ 0
    · by_cases hc : dictContains c.slaves slave = true
      · simp [hs', hr, hc]
      · simp [hs', hr, hc]
    · simp [hs', hr]
      omega

/-- C8 (intended behaviour at the failing input): the pairs that
`__iter__`'s `self.__slaves.items()` holds for a multi-mode context with
unit ids 1 and 2 set are exactly those two (id, context) pairs. -/
theorem items_of_two_slave_context :
    (run (ModbusServerContext.init (β := Nat) none false)
      [Op.set 1 (Obj.slaveCtx 10), Op.set 2 (Obj.slaveCtx 20)]).items =
    [(1, Obj.slaveCtx 10), (2, Obj.slaveCtx 20)] := by
  rfl

/-- C9: in single mode `__setitem__` never raises for any integer unit id
(0xF8 or negative included): the key is forced to the default unit id
before the range check, so the default-id entry is always the one
overwritten and the range-violation branch is unreachable. -/
theorem single_mode_setitem_never_raises (β : Type) (c : ModbusServerContext β)
    (h : c.single = true) (slave : Int) (ctx : Obj β) :
    c.setitem slave ctx = .ok { c with slaves := dictSet c.slaves UnitId ctx } :=
  setitem_single c h slave ctx

/-- Witness for C9: setting unit id 0xF8 on a single-mode context succeeds
and overwrites the default-id entry. -/
theorem single_mode_setitem_never_raises_witness :
    ModbusServerContext.setitem (β := Nat) ⟨true, [(UnitId, Obj.slaveCtx 5)]⟩
      0xf8 (Obj.slaveCtx 9) = .ok ⟨true, [(UnitId, Obj.slaveCtx 9)]⟩ := by
  have h := single_mode_setitem_never_raises Nat ⟨true, [(UnitId, Obj.slaveCtx 5)]⟩
    rfl 0xf8 (Obj.slaveCtx 9)
  simpa [dictSet, UnitId] using h

/-- C10: from a single-mode construction, `__getitem__` never raises for
any unit id after any finite sequence of operations: the default-id entry
always exists, so the does-not-exist branch is unreachable. -/
theorem single_mode_getitem_never_raises (β : Type) (s0 : Option (Dict β))
    (ops : List (Op β)) (slave : Int) :
    ∃ v, (run (ModbusServerContext.init s0 true) ops).getitem slave = .ok (some v) := by
  obtain ⟨h1, v, h2⟩ := singleInv_run _ (singleInv_init s0) ops
  exact ⟨v, getitem_single _ h1 v h2 slave⟩

end Pymodbus3
